import Mathlib

/-
Verification of the serde_fs codec: a serde backend that stores a value tree
as a directory tree, where leaf scalars become files and composite values
become directories. The definitions below embed src/ser.rs and src/de.rs.
Storage is modelled as a tree of nodes; paths are lists of segments relative
to the root handed to to_fs and from_fs. The external whole-document codec
(serde_json) is out of the repository and is modelled as opaque parameters
threaded through the functions that call it.
-/

namespace SerdeFs

/-- A node of the storage tree: a regular file with its content, a directory
with its entries in listing order, or a symbolic link. A link stores the node
it resolves to, which models a non-broken link on a real filesystem. File
content is kept as a Lean String; the repository only ever writes and reads
UTF-8 text at the paths the claims touch. -/
inductive FsNode where
  | file (content : String)
  | dir (entries : List (String × FsNode))
  | symlink (target : FsNode)

/-- Follow a chain of symbolic links down to a regular file or directory. -/
def FsNode.resolve : FsNode → FsNode
  | .symlink t => t.resolve
  | n => n

/-- Walk a path from a node. Intermediate components resolve through links,
as the operating system does during path traversal; the final node is
returned as stored. -/
def FsNode.lookup : FsNode → List String → Option FsNode
  | n, [] => some n
  | n, seg :: rest =>
    match n.resolve with
    | .dir es =>
      match es.lookup seg with
      | some child => child.lookup rest
      | none => none
    | _ => none

/-- What std::fs::metadata reports for a path. -/
structure FsMeta where
  isFile : Bool
  isDir : Bool
  isSymlink : Bool

/-- Models std::fs::metadata: per the Rust standard library documentation it
traverses symbolic links and describes the destination, so the reported
file type is never a symlink. A missing path gives none, modelling Err. -/
def FsNode.metadata (root : FsNode) (p : List String) : Option FsMeta :=
  match root.lookup p with
  | none => none
  | some n =>
    match n.resolve with
    | .file _ => some ⟨true, false, false⟩
    | .dir _ => some ⟨false, true, false⟩
    | .symlink _ => none

/-- Models std::fs::read, which follows symbolic links; reading a directory
fails (none). -/
def readFile (root : FsNode) (p : List String) : Option String :=
  match root.lookup p with
  | some n =>
    match n.resolve with
    | .file c => some c
    | _ => none
  | none => none

/-- Models std::fs::read_dir: the entries of the directory at p in listing
order, or none when the path is missing or not a directory. -/
def readDir (root : FsNode) (p : List String) : Option (List (String × FsNode)) :=
  match root.lookup p with
  | some n =>
    match n.resolve with
    | .dir es => some es
    | _ => none
  | none => none

/-- Replace the entry named k, or append it at the end of the listing. -/
def upsert (es : List (String × FsNode)) (k : String) (v : FsNode) :
    List (String × FsNode) :=
  match es with
  | [] => [(k, v)]
  | (k1, v1) :: rest =>
    if k1 = k then (k, v) :: rest else (k1, v1) :: upsert rest k v

/-- Models fs::create_dir_all on the parent of p followed by fs::write:
missing intermediate directories are created, and the file at the last
segment is created or overwritten. none models an io error: a path component
that is an existing regular file, or a write landing on an existing
directory. -/
def FsNode.writeFile : FsNode → List String → String → Option FsNode
  | _, [], _ => none
  | n, [seg], content =>
    match n.resolve with
    | .dir es =>
      match es.lookup seg with
      | some child =>
        match child.resolve with
        | .dir _ => none
        | _ => some (.dir (upsert es seg (.file content)))
      | none => some (.dir (upsert es seg (.file content)))
    | _ => none
  | n, seg :: rest₁ :: rest₂, content =>
    match n.resolve with
    | .dir es =>
      let child :=
        match es.lookup seg with
        | some c => c
        | none => .dir []
      match child.writeFile (rest₁ :: rest₂) content with
      | some c1 => some (.dir (upsert es seg c1))
      | none => none
    | _ => none

/-- str::starts_with, written over the character list so that it reduces
definitionally. -/
def strStartsWith (s p : String) : Bool :=
  p.data.isPrefixOf s.data

/-- The numeric value of a decimal digit. -/
def digit? (c : Char) : Option Nat :=
  if 48 ≤ c.toNat ∧ c.toNat ≤ 57 then some (c.toNat - 48) else none

/-- Accumulate decimal digits; any other character refuses the whole text. -/
def parseNatCore : List Char → Nat → Option Nat
  | [], acc => some acc
  | c :: rest, acc =>
    match digit? c with
    | some d => parseNatCore rest (acc * 10 + d)
    | none => none

/-- u64::from_str on the file text: an optional leading plus sign then at
least one decimal digit. The source rejects values over the target width;
the model keeps the full number, which no claim depends on. -/
def parseNat (s : String) : Option Nat :=
  match s.data with
  | [] => none
  | '+' :: rest =>
    match rest with
    | [] => none
    | l => parseNatCore l 0
  | l => parseNatCore l 0

/-- i64::from_str on the file text: an optional sign then decimal digits. -/
def parseInt (s : String) : Option Int :=
  match s.data with
  | [] => none
  | '-' :: rest =>
    match rest with
    | [] => none
    | l =>
      match parseNatCore l 0 with
      | some n => some (-(n : Int))
      | none => none
  | '+' :: rest =>
    match rest with
    | [] => none
    | l =>
      match parseNatCore l 0 with
      | some n => some ((n : Int))
      | none => none
  | l =>
    match parseNatCore l 0 with
    | some n => some ((n : Int))
    | none => none

/-- src/error.rs SerError. Messages are kept without the apostrophes the
source messages contain. -/
inductive SerError where
  | NotSupportedAtRootLevel (msg : String)
  | IoError
  | Serde (msg : String)
  | SerdeJson

/-- src/error.rs DeError, each variant with the data the source attaches. -/
inductive DeError where
  | IoError
  | EmptyFile (p : List String)
  | EmptyDirectory (p : List String)
  | EncounteredSymlink (p : List String)
  | InvalidUnicode
  | InvalidBool (content : String) (p : List String)
  | ParseError (s : String)
  | Serde (msg : String)
  | SerdeJson

/-- src/ser.rs Serializer: the cursor path (segments pushed below the root
given to to_fs), the dirty flag, the push depth, together with the storage
tree the writes land in. -/
structure Serializer where
  path : List String
  path_dirty : Bool
  dir_level : Nat
  fs : FsNode

/-- Outcome of a serializer step: a new state, a recoverable error, or an
aborted process. panicked models both the panic on a dirty path and the
failed assert on dir_level in write_data. -/
inductive SerResult where
  | ok (s : Serializer)
  | err (e : SerError)
  | panicked

/-- Serializer::write_data: panics when the path is dirty, asserts
dir_level > 0, creates parent directories, writes the file and sets the
dirty flag. -/
def Serializer.write_data (st : Serializer) (content : String) : SerResult :=
  if st.path_dirty then .panicked
  else if st.dir_level = 0 then .panicked
  else
    match st.fs.writeFile st.path content with
    | none => .err .IoError
    | some fs1 => .ok { st with fs := fs1, path_dirty := true }

/-- Serializer::push. -/
def Serializer.push (st : Serializer) (seg : String) : Serializer :=
  { st with path := st.path ++ [seg], dir_level := st.dir_level + 1 }

/-- Serializer::pop: drops the last segment, decrements the depth and clears
the dirty flag. -/
def Serializer.pop (st : Serializer) : Serializer :=
  { st with path := st.path.dropLast, dir_level := st.dir_level - 1,
            path_dirty := false }

/-- Serializer::fail_if_at_root. -/
def Serializer.fail_if_at_root (st : Serializer) (msg : String) :
    Option SerError :=
  if st.dir_level = 0 then some (.NotSupportedAtRootLevel msg) else none

/-- The serializer to_fs builds for a fresh target directory. -/
def initSer : Serializer := ⟨[], false, 0, .dir []⟩

/-- A value of the serde data model, as the serializer in src/ser.rs receives
it: scalars, options, sequences, string-keyed maps (map keys reach the path
through the StringSerializer, so they are path-segment text by the time the
cursor sees them), structs and the four variant forms. Integers are modelled
at the widths the two sides funnel through (i64 and u64). -/
inductive Value where
  | vBool (b : Bool)
  | vU64 (n : Nat)
  | vI64 (i : Int)
  | vChar (c : Char)
  | vStr (s : String)
  | vUnit
  | vOption (o : Option Value)
  | vSeq (xs : List Value)
  | vMap (entries : List (String × Value))
  | vStruct (fields : List (String × Value))
  | vUnitVariant (name : String)
  | vNewtypeVariant (name : String) (v : Value)
  | vTupleVariant (name : String) (xs : List Value)
  | vStructVariant (name : String) (fields : List (String × Value))

/-- What serialize_char writes: encode_utf8 fills the prefix of an 8-byte
zeroed buffer and the code then writes the whole buffer, so the content is
the character followed by zero bytes up to 8 bytes in total. -/
def charPad (c : Char) : String :=
  ⟨c :: List.replicate (8 - c.utf8Size) '\x00'⟩

mutual

/-- The Serialize driver of src/ser.rs, one case per serialize_* method.
je is the external whole-document codec (serde_json::to_string), reached
only from struct and struct-variant fields whose name starts with json.
Note two faithful details: serialize_bool has no fail_if_at_root guard, and
a tuple variant never pops the variant segment (its end method is a no-op,
unlike the struct variant one). -/
def serializeValue (je : Value → String) : Value → Serializer → SerResult
  | .vBool b, st => st.write_data (if b then "true" else "false")
  | .vU64 n, st =>
    match st.fail_if_at_root "u64s" with
    | some e => .err e
    | none => st.write_data (toString n)
  | .vI64 i, st =>
    match st.fail_if_at_root "i64s" with
    | some e => .err e
    | none => st.write_data (toString i)
  | .vChar c, st =>
    match st.fail_if_at_root "chars" with
    | some e => .err e
    | none => st.write_data (charPad c)
  | .vStr s, st =>
    match st.fail_if_at_root "strs" with
    | some e => .err e
    | none => st.write_data s
  | .vUnit, st =>
    match st.fail_if_at_root "units" with
    | some e => .err e
    | none => st.write_data ""
  | .vOption none, st =>
    match st.fail_if_at_root "options" with
    | some e => .err e
    | none =>
      match st.fail_if_at_root "units" with
      | some e => .err e
      | none => st.write_data ""
  | .vOption (some v), st => serializeValue je v st
  | .vSeq xs, st => serializeSeqList je xs 0 st
  | .vMap es, st => serializeMapEntries je es st
  | .vStruct fields, st => serializeFields je fields st
  | .vUnitVariant name, st =>
    match st.fail_if_at_root "enums" with
    | some e => .err e
    | none =>
      match st.fail_if_at_root "strs" with
      | some e => .err e
      | none => st.write_data name
  | .vNewtypeVariant name v, st =>
    match serializeValue je v (st.push name) with
    | .ok st1 => .ok st1.pop
    | r => r
  | .vTupleVariant name xs, st => serializeSeqList je xs 0 (st.push name)
  | .vStructVariant name fields, st =>
    match serializeFields je fields (st.push name) with
    | .ok st1 => .ok st1.pop
    | r => r

/-- SequentialSerializer: each element under the next decimal index, push
before and pop after. -/
def serializeSeqList (je : Value → String) :
    List Value → Nat → Serializer → SerResult
  | [], _, st => .ok st
  | x :: rest, idx, st =>
    match serializeValue je x (st.push (toString idx)) with
    | .ok st1 => serializeSeqList je rest (idx + 1) st1.pop
    | r => r

/-- SerializeMap: serialize_key pushes the key text, serialize_value encodes
the value and pops. There is no whole-document escape here: map keys are not
checked for the json marker on encode. -/
def serializeMapEntries (je : Value → String) :
    List (String × Value) → Serializer → SerResult
  | [], st => .ok st
  | (k, v) :: rest, st =>
    match serializeValue je v (st.push k) with
    | .ok st1 => serializeMapEntries je rest st1.pop
    | r => r

/-- SerializeStruct::serialize_field (the struct-variant field code is
identical): push the field name; when it starts with json, the value is
encoded in one step by the external codec and the resulting text is written
through serialize_str, inlined here as its guard followed by write_data;
otherwise recurse normally; pop. -/
def serializeFields (je : Value → String) :
    List (String × Value) → Serializer → SerResult
  | [], st => .ok st
  | (k, v) :: rest, st =>
    if strStartsWith k "json" then
      match (st.push k).fail_if_at_root "strs" with
      | some e => .err e
      | none =>
        match (st.push k).write_data (je v) with
        | .ok st2 => serializeFields je rest st2.pop
        | r => r
    else
      match serializeValue je v (st.push k) with
      | .ok st2 => serializeFields je rest st2.pop
      | r => r

end

mutual

/-- The shape the external traversal framework supplies on decode: the
statically expected type of the value at the current location. -/
inductive Shape where
  | sBool
  | sU64
  | sI64
  | sChar
  | sStr
  | sUnit
  | sOption (inner : Shape)
  | sSeq (elem : Shape)
  | sMap (valShape : Shape)
  | sStruct (fields : List (String × Shape))
  | sEnum (variants : List (String × VShape))

/-- The payload shape of one declared variant. -/
inductive VShape where
  | unit
  | newtype (sh : Shape)
  | tuple (elems : List Shape)
  | structV (fields : List (String × Shape))

end

/-- src/de.rs Deserializer: the cursor path below the root given to from_fs
and the expect_json mode flag. The storage tree is read only, so it is
passed separately to every operation. -/
structure Deserializer where
  path : List String
  expect_json : Bool

/-- Deserializer::push. -/
def Deserializer.push (d : Deserializer) (seg : String) : Deserializer :=
  { d with path := d.path ++ [seg] }

/-- Deserializer::pop. -/
def Deserializer.pop (d : Deserializer) : Deserializer :=
  { d with path := d.path.dropLast }

/-- Deserializer::points_to_file: fs::metadata at the current path, a symlink
check on the result, then is_file. Because fs::metadata follows links, the
symlink branch can only be reached if the metadata call itself reported one,
which it never does. -/
def points_to_file (fs : FsNode) (d : Deserializer) : Except DeError Bool :=
  match fs.metadata d.path with
  | none => .error .IoError
  | some m =>
    if m.isSymlink then .error (.EncounteredSymlink d.path)
    else .ok m.isFile

/-- Deserializer::current_path_exists and path_exists: fs::metadata(..).is_ok(). -/
def current_path_exists (fs : FsNode) (d : Deserializer) : Bool :=
  (fs.metadata d.path).isSome

/-- Deserializer::read_string (via read_bytes). The model keeps file content
as a String, so the invalid-unicode failure of the source cannot arise. -/
def read_string (fs : FsNode) (d : Deserializer) : Except DeError String :=
  match readFile fs d.path with
  | some c => .ok c
  | none => .error .IoError

/-- Outcome of a decode step: a value with the updated cursor, a recoverable
error, an aborted process (a failed unwrap or assert in the source), or
exhausted recursion fuel (never reached at the depths the theorems use). -/
inductive DeResult (α : Type) where
  | ok (a : α) (d : Deserializer)
  | err (e : DeError)
  | panicked
  | noFuel

/-- The external whole-document decoder (serde_json parsing a struct with the
given fields out of the text of one file), modelled as a parameter. -/
abbrev JsonDec := List (String × Shape) → String → Option Value

/-- The derived struct builder: one value per declared field, in declared
order, from the entries collected while walking the directory. A declared
field with no entry is an error, except an option field, which serde fills
with None through its missing-field path. -/
def assembleStruct : List (String × Shape) → List (String × Value) →
    Option (List (String × Value))
  | [], _ => some []
  | (name, sh) :: rest, got =>
    match got.lookup name with
    | some v =>
      match assembleStruct rest got with
      | some l => some ((name, v) :: l)
      | none => none
    | none =>
      match sh with
      | .sOption _ =>
        match assembleStruct rest got with
        | some l => some ((name, .vOption none) :: l)
        | none => none
      | _ => none

mutual

/-- The Deserialize driver of src/de.rs, one case per deserialize_* method,
driven by the expected shape. The first argument is recursion fuel; every
recursive call strictly decreases it, and the theorems supply enough for the
trees they decode. jd is the external whole-document codec. -/
def decodeValue (jd : JsonDec) (fs : FsNode) :
    Nat → Shape → Deserializer → DeResult Value
  | 0, _, _ => .noFuel
  | f + 1, sh, d =>
    match sh with
    | .sBool =>
      match read_string fs d with
      | .error e => .err e
      | .ok s =>
        if s = "true" then .ok (.vBool true) d
        else if s = "false" then .ok (.vBool false) d
        else .err (.InvalidBool s d.path)
    | .sU64 =>
      match read_string fs d with
      | .error e => .err e
      | .ok s =>
        match parseNat s with
        | some n => .ok (.vU64 n) d
        | none => .err (.ParseError s)
    | .sI64 =>
      match read_string fs d with
      | .error e => .err e
      | .ok s =>
        match parseInt s with
        | some i => .ok (.vI64 i) d
        | none => .err (.ParseError s)
    | .sChar =>
      match read_string fs d with
      | .error e => .err e
      | .ok s =>
        match s.data.head? with
        | none => .err (.EmptyFile d.path)
        | some c => .ok (.vChar c) d
    | .sStr =>
      match read_string fs d with
      | .error e => .err e
      | .ok s => .ok (.vStr s) d
    | .sUnit => .ok .vUnit d
    | .sOption inner =>
      if current_path_exists fs d then
        match decodeValue jd fs f inner d with
        | .ok v d1 => .ok (.vOption (some v)) d1
        | r => r
      else .ok (.vOption none) d
    | .sSeq elem => decodeSeqLoop jd fs f elem 0 [] d
    | .sMap valShape =>
      match readDir fs d.path with
      | none => .panicked
      | some es =>
        match decodeMapLoop jd fs f valShape es [] d with
        | .ok pairs d1 => .ok (.vMap pairs) d1
        | .err e => .err e
        | .panicked => .panicked
        | .noFuel => .noFuel
    | .sStruct fields =>
      match points_to_file fs d with
      | .error e => .err e
      | .ok true =>
        if d.expect_json = false then .panicked
        else
          match readFile fs d.path with
          | none => .err .IoError
          | some content =>
            match jd fields content with
            | some v => .ok v d
            | none => .err .SerdeJson
      | .ok false =>
        if d.expect_json = true then .panicked
        else
          match readDir fs d.path with
          | none => .panicked
          | some es =>
            match decodeStructLoop jd fs f fields es [] d with
            | .ok got d1 =>
              match assembleStruct fields got with
              | some l => .ok (.vStruct l) d1
              | none => .err (.Serde "missing field")
            | .err e => .err e
            | .panicked => .panicked
            | .noFuel => .noFuel
    | .sEnum variants =>
      match points_to_file fs d with
      | .error e => .err e
      | .ok true =>
        match readFile fs d.path with
        | none => .panicked
        | some s =>
          match variants.lookup s with
          | none => .panicked
          | some vsh =>
            match decodePayload jd fs f s vsh d with
            | .ok v d1 => .ok v d1
            | .err _ => .panicked
            | r => r
      | .ok false =>
        match readDir fs d.path with
        | none => .panicked
        | some [] => .err (.EmptyDirectory d.path)
        | some ((name, _) :: _) =>
          match variants.lookup name with
          | none => .panicked
          | some vsh =>
            match decodePayload jd fs f name vsh (d.push name) with
            | .ok v d1 => .ok v d1.pop
            | .err _ => .panicked
            | r => r

/-- VariantAccess: how the payload of the selected variant is decoded at the
current location. Errors below this point pass through the unwrap on
visit_enum in deserialize_enum, which is why the caller converts them to
panics. -/
def decodePayload (jd : JsonDec) (fs : FsNode) :
    Nat → String → VShape → Deserializer → DeResult Value
  | 0, _, _, _ => .noFuel
  | _ + 1, name, .unit, d => .ok (.vUnitVariant name) d
  | f + 1, name, .newtype sh, d =>
    match decodeValue jd fs f sh d with
    | .ok v d1 => .ok (.vNewtypeVariant name v) d1
    | r => r
  | f + 1, name, .tuple elems, d =>
    match decodeTupleLoop jd fs f elems 0 [] d with
    | .ok vs d1 => .ok (.vTupleVariant name vs) d1
    | .err e => .err e
    | .panicked => .panicked
    | .noFuel => .noFuel
  | f + 1, name, .structV fields, d =>
    match readDir fs d.path with
    | none => .panicked
    | some es =>
      match decodeStructLoop jd fs f fields es [] d with
      | .ok got d1 =>
        match assembleStruct fields got with
        | some l => .ok (.vStructVariant name l) d1
        | none => .err (.Serde "missing field")
      | .err e => .err e
      | .panicked => .panicked
      | .noFuel => .noFuel

/-- SequentialDeserializer::deserialize_next driven by the Vec visitor: push
the next decimal index, stop with the collected elements at the first
missing index, otherwise decode the element and continue. -/
def decodeSeqLoop (jd : JsonDec) (fs : FsNode) :
    Nat → Shape → Nat → List Value → Deserializer → DeResult Value
  | 0, _, _, _, _ => .noFuel
  | f + 1, elem, idx, acc, d =>
    let d1 := d.push (toString idx)
    if current_path_exists fs d1 then
      match decodeValue jd fs f elem d1 with
      | .ok v d2 => decodeSeqLoop jd fs f elem (idx + 1) (acc ++ [v]) d2.pop
      | r => r
    else .ok (.vSeq acc) d1.pop

/-- The same access driven by a tuple visitor, which demands one element per
declared shape and turns a missing index into an invalid-length error. -/
def decodeTupleLoop (jd : JsonDec) (fs : FsNode) :
    Nat → List Shape → Nat → List Value → Deserializer → DeResult (List Value)
  | 0, _, _, _, _ => .noFuel
  | _ + 1, [], _, acc, d => .ok acc d
  | f + 1, sh :: rest, idx, acc, d =>
    let d1 := d.push (toString idx)
    if current_path_exists fs d1 then
      match decodeValue jd fs f sh d1 with
      | .ok v d2 => decodeTupleLoop jd fs f rest (idx + 1) (acc ++ [v]) d2.pop
      | .err e => .err e
      | .panicked => .panicked
      | .noFuel => .noFuel
    else .err (.Serde "invalid length")

/-- MapDeserializer over a map shape: every directory entry is one map entry,
its name the key text; an entry name starting with json raises the
expect_json flag before the value is decoded, and next_value_seed clears the
flag and pops afterwards. -/
def decodeMapLoop (jd : JsonDec) (fs : FsNode) :
    Nat → Shape → List (String × FsNode) → List (String × Value) →
    Deserializer → DeResult (List (String × Value))
  | 0, _, _, _, _ => .noFuel
  | _ + 1, _, [], acc, d => .ok acc d
  | f + 1, valShape, (name, _) :: rest, acc, d =>
    let d1 :=
      if strStartsWith name "json" then { d with expect_json := true } else d
    match decodeValue jd fs f valShape (d1.push name) with
    | .ok v d2 =>
      decodeMapLoop jd fs f valShape rest (acc ++ [(name, v)])
        ({ d2 with expect_json := false }).pop
    | .err e => .err e
    | .panicked => .panicked
    | .noFuel => .noFuel

/-- MapDeserializer over a struct shape: the derived visitor matches each
entry name against the declared fields, decodes a matching field at its
shape, and ignores an unknown entry through deserialize_ignored_any, which
touches no storage. The flag and pop behaviour is that of decodeMapLoop. -/
def decodeStructLoop (jd : JsonDec) (fs : FsNode) :
    Nat → List (String × Shape) → List (String × FsNode) →
    List (String × Value) → Deserializer → DeResult (List (String × Value))
  | 0, _, _, _, _ => .noFuel
  | _ + 1, _, [], acc, d => .ok acc d
  | f + 1, fields, (name, _) :: rest, acc, d =>
    let d1 :=
      if strStartsWith name "json" then { d with expect_json := true } else d
    let d2 := d1.push name
    match fields.lookup name with
    | some sh =>
      match decodeValue jd fs f sh d2 with
      | .ok v d3 =>
        decodeStructLoop jd fs f fields rest (acc ++ [(name, v)])
          ({ d3 with expect_json := false }).pop
      | .err e => .err e
      | .panicked => .panicked
      | .noFuel => .noFuel
    | none =>
      decodeStructLoop jd fs f fields rest acc
        ({ d2 with expect_json := false }).pop

end

/-- The deserializer from_fs builds. -/
def initDe : Deserializer := ⟨[], false⟩

/-- The byte length of file content: the sum of the UTF-8 sizes of its
characters. -/
def utf8Len (s : String) : Nat :=
  s.data.foldl (fun a c => a + Char.utf8Size c) 0

theorem utf8Size_nul : Char.utf8Size '\x00' = 1 := rfl

theorem utf8Size_le_four (c : Char) : c.utf8Size ≤ 4 := by
  unfold Char.utf8Size
  dsimp only
  split_ifs <;> decide

theorem foldl_replicate_nul (k n : Nat) :
    List.foldl (fun a c => a + Char.utf8Size c) n (List.replicate k '\x00') =
      n + k := by
  induction k generalizing n with
  | zero => simp
  | succ k ih => simp [List.replicate_succ, ih, utf8Size_nul]; omega

theorem utf8Len_charPad (c : Char) : utf8Len (charPad c) = 8 := by
  have h := utf8Size_le_four c
  simp [utf8Len, charPad, foldl_replicate_nul]
  omega

/-- C1: evaluating the code at the failing input. Encoding a record whose
option field is None writes a present empty file at the field path, the very
state encoding Some of the empty string produces, instead of leaving the
path absent; decoding that state returns Some of the empty string. So the
two disk states are identical, not observably different as the claim
states. -/
theorem c1_encode_none_writes_empty_file :
    serializeValue (fun _ => "") (.vStruct [("opt", .vOption none)]) initSer =
      .ok ⟨[], false, 0, .dir [("opt", .file "")]⟩ ∧
    serializeValue (fun _ => "")
        (.vStruct [("opt", .vOption (some (.vStr "")))]) initSer =
      .ok ⟨[], false, 0, .dir [("opt", .file "")]⟩ ∧
    decodeValue (fun _ _ => none) (.dir [("opt", .file "")]) 20
        (.sStruct [("opt", .sOption .sStr)]) initDe =
      .ok (.vStruct [("opt", .vOption (some (.vStr "")))]) ⟨[], false⟩ :=
  ⟨rfl, rfl, rfl⟩

/-- C2: evaluating the code at the failing input. The round trip of the
record with option field None returns the record with Some of the empty
string, a structurally different value, because serialize_none writes an
empty file and deserialize_option maps any existing path to Some. -/
theorem c2_roundtrip_fails_at_none :
    serializeValue (fun _ => "") (.vStruct [("opt", .vOption none)]) initSer =
      .ok ⟨[], false, 0, .dir [("opt", .file "")]⟩ ∧
    decodeValue (fun _ _ => none) (.dir [("opt", .file "")]) 20
        (.sStruct [("opt", .sOption .sStr)]) initDe =
      .ok (.vStruct [("opt", .vOption (some (.vStr "")))]) ⟨[], false⟩ ∧
    Value.vStruct [("opt", .vOption (some (.vStr "")))] ≠
      Value.vStruct [("opt", .vOption none)] :=
  ⟨rfl, rfl, by simp⟩

/-- C3: evaluating the code at the failing input. points_to_file probes a
location that is a symlink to a file and reports a plain file with no error,
because fs::metadata follows the link, and the enum decode at that location
silently succeeds instead of failing with EncounteredSymlink. -/
theorem c3_symlink_decoded_silently :
    points_to_file (.symlink (.file "A")) initDe = .ok true ∧
    decodeValue (fun _ _ => none) (.symlink (.file "A")) 20
        (.sEnum [("A", .unit)]) initDe =
      .ok (.vUnitVariant "A") ⟨[], false⟩ :=
  ⟨rfl, rfl⟩

/-- C4: evaluating the code at the failing input. Encoding a boolean at
depth zero panics through the dir_level assert in write_data, because
serialize_bool is the one leaf method without the fail_if_at_root guard;
a string leaf at depth zero returns the NotSupportedAtRootLevel error the
claim expects for every leaf. -/
theorem c4_bool_at_root_panics :
    serializeValue (fun _ => "") (.vBool true) initSer = .panicked ∧
    serializeValue (fun _ => "") (.vStr "x") initSer =
      .err (.NotSupportedAtRootLevel "strs") :=
  ⟨rfl, rfl⟩

/-- C5: the variant decode algorithm. At a file location the file text is
the variant name and a no-payload variant completes immediately with the
cursor unchanged; an empty directory fails with EmptyDirectory; at a
directory whose first listed entry names a payload-bearing variant, the
decoder descends into that entry, decodes the payload there, and ascends —
whatever entries follow the first. -/
theorem c5_variant_decode_algorithm
    (jd : JsonDec) (content name : String) (vs : List (String × VShape))
    (node : FsNode) (rest : List (String × FsNode)) (sh : Shape)
    (v : Value) (d1 : Deserializer) (f : Nat)
    (hunit : vs.lookup content = some .unit)
    (hvar : vs.lookup name = some (.newtype sh))
    (hpayload :
      decodeValue jd (.dir ((name, node) :: rest)) f sh ⟨[name], false⟩ =
        .ok v d1) :
    decodeValue jd (.file content) (f + 1 + 1) (.sEnum vs) initDe =
      .ok (.vUnitVariant content) initDe ∧
    decodeValue jd (.dir []) (f + 1 + 1) (.sEnum vs) initDe =
      .err (.EmptyDirectory []) ∧
    decodeValue jd (.dir ((name, node) :: rest)) (f + 1 + 1) (.sEnum vs)
        initDe =
      .ok (.vNewtypeVariant name v) d1.pop := by
  refine ⟨?_, ?_, ?_⟩
  · simp [decodeValue, decodePayload, hunit, points_to_file, FsNode.metadata,
      FsNode.lookup, FsNode.resolve, readFile, initDe]
  · simp [decodeValue, points_to_file, FsNode.metadata, FsNode.lookup,
      FsNode.resolve, readDir, initDe]
  · simp [decodeValue, decodePayload, hvar, hpayload, points_to_file,
      FsNode.metadata, FsNode.lookup, FsNode.resolve, readDir, initDe,
      Deserializer.push]

/-- Witness for C5 at a concrete enum with a unit variant A and a newtype
variant N, the directory holding one entry N with file content 5. -/
theorem c5_variant_decode_algorithm_witness :
    decodeValue (fun _ _ => none) (.file "A") 7
        (.sEnum [("A", .unit), ("N", .newtype .sU64)]) initDe =
      .ok (.vUnitVariant "A") initDe ∧
    decodeValue (fun _ _ => none) (.dir []) 7
        (.sEnum [("A", .unit), ("N", .newtype .sU64)]) initDe =
      .err (.EmptyDirectory []) ∧
    decodeValue (fun _ _ => none) (.dir [("N", .file "5")]) 7
        (.sEnum [("A", .unit), ("N", .newtype .sU64)]) initDe =
      .ok (.vNewtypeVariant "N" (.vU64 5)) (Deserializer.pop ⟨["N"], false⟩) :=
  c5_variant_decode_algorithm (fun _ _ => none) "A" "N"
    [("A", .unit), ("N", .newtype .sU64)] (.file "5") [] .sU64 (.vU64 5)
    ⟨["N"], false⟩ 5 rfl rfl rfl

/-- C6: sequence decoding probes indices 0, 1, 2, finds 3 missing and stops
with exactly the three collected elements; the entry named 4 is never
visited — the result is the same whatever node sits there. -/
theorem c6_sequence_gap_truncation (n4 : FsNode) :
    decodeValue (fun _ _ => none)
      (.dir [("0", .file "a"), ("1", .file "b"), ("2", .file "c"), ("4", n4)])
      20 (.sSeq .sStr) initDe =
    .ok (.vSeq [.vStr "a", .vStr "b", .vStr "c"]) ⟨[], false⟩ := rfl

/-- C7 counterexample: encoding the char a writes eight bytes, the letter
followed by seven zero bytes, so the file content is not exactly the UTF-8
bytes of the one scalar value, which would be the one-byte string a. -/
theorem c7_char_not_exact_utf8 :
    serializeValue (fun _ => "") (.vStruct [("c", .vChar 'a')]) initSer =
      .ok ⟨[], false, 0,
        .dir [("c", .file "a\x00\x00\x00\x00\x00\x00\x00")]⟩ ∧
    ("a\x00\x00\x00\x00\x00\x00\x00" : String) ≠ "a" :=
  ⟨rfl, by decide⟩

/-- C7 as amended: encoding a char writes an 8-byte buffer holding the
UTF-8 bytes of the char followed by zero padding; decoding reads the first
character and ignores the trailing bytes, recovering the char; a zero-length
file fails with EmptyFile. -/
theorem c7_char_padded_encoding (c : Char) (f : Nat) :
    serializeValue (fun _ => "") (.vStruct [("c", .vChar c)]) initSer =
      .ok ⟨[], false, 0, .dir [("c", .file (charPad c))]⟩ ∧
    utf8Len (charPad c) = 8 ∧
    decodeValue (fun _ _ => none) (.file (charPad c)) (f + 1) .sChar initDe =
      .ok (.vChar c) initDe ∧
    decodeValue (fun _ _ => none) (.file "") (f + 1) .sChar initDe =
      .err (.EmptyFile []) :=
  ⟨rfl, utf8Len_charPad c, rfl, rfl⟩

/-- C8: every completed leaf write leaves the dirty flag set; pop always
clears it; a write attempted while the flag is set aborts with a panic and
returns no new storage state, so the data already at the location is never
overwritten. -/
theorem c8_dirty_flag_discipline
    (stA stB st1 : Serializer) (cA cB : String)
    (hok : stA.write_data cA = .ok st1)
    (hdirty : stB.path_dirty = true) :
    st1.path_dirty = true ∧ stB.write_data cB = .panicked ∧
    (∀ s : Serializer, s.pop.path_dirty = false) := by
  refine ⟨?_, ?_, fun s => rfl⟩
  · unfold Serializer.write_data at hok
    split at hok
    · simp at hok
    · split at hok
      · simp at hok
      · split at hok
        · simp at hok
        · cases hok
          rfl
  · unfold Serializer.write_data
    rw [hdirty]
    simp

/-- Witness for C8: a clean write at depth one succeeds and sets the flag,
and a serializer whose flag is set panics on the next write. -/
theorem c8_dirty_flag_discipline_witness :
    (⟨["x"], true, 1, FsNode.dir [("x", FsNode.file "v")]⟩ :
        Serializer).path_dirty = true ∧
    (⟨["y"], true, 1, FsNode.dir []⟩ : Serializer).write_data "w" =
      .panicked ∧
    (∀ s : Serializer, s.pop.path_dirty = false) :=
  c8_dirty_flag_discipline ⟨["x"], false, 1, .dir []⟩
    ⟨["y"], true, 1, .dir []⟩ ⟨["x"], true, 1, .dir [("x", .file "v")]⟩
    "v" "w" rfl rfl

/-- C9 counterexample: a map entry whose key carries the json marker is not
routed through the whole-document codec on encode — the value is written as
an ordinary directory with one file per field, not as one leaf file. -/
theorem c9_map_key_not_routed :
    serializeValue (fun _ => "BLOB")
        (.vMap [("jsonx", .vStruct [("a", .vU64 1)])]) initSer =
      .ok ⟨[], false, 0, .dir [("jsonx", .dir [("a", .file "1")])]⟩ ∧
    (∀ s : String, FsNode.dir [("a", FsNode.file "1")] ≠ FsNode.file s) :=
  ⟨rfl, by intro s h; cases h⟩

/-- C9 as amended: for struct and struct-variant fields the marker works as
claimed. On encode, a field whose name starts with json is serialized in one
step by the external codec and written as a single leaf file, with no
per-field directories beneath it; on decode, a directory entry with the
marker raises the json expectation and a struct-shaped value found at a file
location is parsed from the full file content in one step. -/
theorem c9_json_struct_fields
    (je : Value → String) (jd : JsonDec) (k : String) (v : Value)
    (innerFields : List (String × Shape)) (blob : String) (w : Value) (f : Nat)
    (hk : strStartsWith k "json" = true)
    (hjd : jd innerFields blob = some w) :
    serializeValue je (.vStruct [(k, v)]) initSer =
      .ok ⟨[], false, 0, .dir [(k, .file (je v))]⟩ ∧
    serializeValue je (.vStructVariant "V" [(k, v)]) initSer =
      .ok ⟨[], false, 0, .dir [("V", .dir [(k, .file (je v))])]⟩ ∧
    decodeValue jd (.dir [(k, .file blob)]) (f + 1 + 1 + 1)
        (.sStruct [(k, .sStruct innerFields)]) initDe =
      .ok (.vStruct [(k, w)]) initDe := by
  refine ⟨?_, ?_, ?_⟩
  · simp [serializeValue, serializeFields, hk, Serializer.push,
      Serializer.write_data, Serializer.fail_if_at_root, Serializer.pop,
      FsNode.writeFile, FsNode.resolve, upsert, initSer]
  · simp [serializeValue, serializeFields, hk, Serializer.push,
      Serializer.write_data, Serializer.fail_if_at_root, Serializer.pop,
      FsNode.writeFile, FsNode.resolve, upsert, initSer]
  · simp [decodeValue, decodeStructLoop, hk, hjd, points_to_file,
      FsNode.metadata, FsNode.lookup, FsNode.resolve, readFile, readDir,
      initDe, Deserializer.push, Deserializer.pop, assembleStruct]

/-- Witness for C9 at the concrete field name jsonk with a concrete external
codec. -/
theorem c9_json_struct_fields_witness :
    serializeValue (fun _ => "E") (.vStruct [("jsonk", .vU64 1)]) initSer =
      .ok ⟨[], false, 0, .dir [("jsonk", .file "E")]⟩ ∧
    serializeValue (fun _ => "E")
        (.vStructVariant "V" [("jsonk", .vU64 1)]) initSer =
      .ok ⟨[], false, 0, .dir [("V", .dir [("jsonk", .file "E")])]⟩ ∧
    decodeValue (fun _ _ => some (.vU64 3)) (.dir [("jsonk", .file "B")]) 3
        (.sStruct [("jsonk", .sStruct [("a", .sU64)])]) initDe =
      .ok (.vStruct [("jsonk", .vU64 3)]) initDe :=
  c9_json_struct_fields (fun _ => "E") (fun _ _ => some (.vU64 3)) "jsonk"
    (.vU64 1) [("a", .sU64)] "B" (.vU64 3) 0 (by decide) rfl

end SerdeFs
